import Mathlib

/-!
Verification of the ursaproxy caching core against its source.

The development shallowly embeds the repository's `cache.py`, `fetcher.py`
and the handler orchestration in `__init__.py`:

* The Python dict `Cache._data` (insertion ordered, unique keys) is modelled
  as an association list `List (String × CacheEntry α)` together with the
  dict operations `dictGet` (`d.get(key)`), `dictPop` (`d.pop(key, None)`)
  and `dictInsert` (`d[key] = v`: in-place update when the key is present,
  append otherwise).
* Wall-clock instants (`time()`) are passed explicitly as integers; the
  source only ever compares time differences against a TTL.
* Cache values are opaque payloads, so the store is parametric in the value
  type; Python truthiness of a stored value is a `Bool`-valued parameter
  (for strings it is nonemptiness).
* Outbound HTTP is an oracle: an `HttpOutcome` says what `client.get(url)`
  did, and `fetch` reproduces the classification in `fetcher._fetch`.
-/

namespace Ursaproxy

/-- A stored cache entry: the `(value, timestamp)` tuple of `cache.py`. -/
structure CacheEntry (α : Type) where
  value : α
  timestamp : Int
  deriving Repr, DecidableEq

/-- Python `self._data.get(key)`: look the key up in the insertion-ordered
dict, returning the stored entry when present. -/
def dictGet {α : Type} (d : List (String × α)) (key : String) : Option α :=
  (d.find? (fun p => p.1 == key)).map (fun p => p.2)

/-- Python `self._data.pop(key, None)`: remove the entry stored under `key`
when present; removing an absent key is a no-op. -/
def dictPop {α : Type} (d : List (String × α)) (key : String) : List (String × α) :=
  d.filter (fun p => p.1 != key)

/-- Python `self._data[key] = v`: overwrite in place when the key is present
(the dict keeps its position), append a fresh binding otherwise. -/
def dictInsert {α : Type} (d : List (String × α)) (key : String) (v : α) :
    List (String × α) :=
  if d.any (fun p => p.1 == key) then
    d.map (fun p => if p.1 == key then (key, v) else p)
  else d ++ [(key, v)]

/-- The list of keys of the store, in insertion order. -/
def dictKeys {α : Type} (d : List (String × α)) : List String :=
  d.map (fun p => p.1)

/-- The TTL cache of `cache.py`: `_data` plus `_max_size`. -/
structure Cache (α : Type) where
  data : List (String × CacheEntry α)
  maxSize : Nat
  deriving Repr, DecidableEq

/-- `Cache(max_size)`: a fresh cache starts with an empty store
(`max_size` defaults to 1000 in the source). -/
def Cache.init {α : Type} (maxSize : Nat := 1000) : Cache α :=
  { data := [], maxSize := maxSize }

/-- `Cache.get(key, ttl)` at instant `now`: return the stored value when the
entry exists and `now - timestamp < ttl`; otherwise return `None`, popping
the (necessarily expired) entry when one was present. -/
def Cache.get {α : Type} (c : Cache α) (key : String) (ttl : Int) (now : Int) :
    Option α × Cache α :=
  match dictGet c.data key with
  | none => (none, c)
  | some e =>
    if now - e.timestamp < ttl then (some e.value, c)
    else (none, { c with data := dictPop c.data key })

/-- The slice bound `len(sorted_keys) // 10 or 1` of `_evict_if_full`. -/
def evictCount (n : Nat) : Nat :=
  if n / 10 = 0 then 1 else n / 10

/-- The comparison used by `sorted(self._data.keys(), key=lambda k:
self._data[k][1])`: order entries by stored timestamp. -/
def tsLe {α : Type} (a b : String × CacheEntry α) : Bool :=
  a.2.timestamp ≤ b.2.timestamp

/-- The slice `sorted_keys[: len(sorted_keys) // 10 or 1]` of
`_evict_if_full`: the keys of the store, stably sorted by stored timestamp
(`sorted` with `key=lambda k: self._data[k][1]`), truncated to the oldest
tenth (at least one). -/
def removedKeys {α : Type} (c : Cache α) : List String :=
  let sortedKeys := dictKeys (c.data.mergeSort tsLe)
  sortedKeys.take (evictCount sortedKeys.length)

/-- `Cache._evict_if_full`: when the store holds at least `_max_size`
entries, pop every key of the oldest-tenth slice. -/
def Cache.evictIfFull {α : Type} (c : Cache α) : Cache α :=
  if c.maxSize ≤ c.data.length then
    { c with data := (removedKeys c).foldl dictPop c.data }
  else c

/-- `Cache.set(key, value)` at instant `now`: evict if full, then store the
value stamped with the current time. -/
def Cache.set {α : Type} (c : Cache α) (key : String) (v : α) (now : Int) :
    Cache α :=
  let c1 := c.evictIfFull
  { c1 with data := dictInsert c1.data key { value := v, timestamp := now } }

/-- A client-visible cache operation, with the instant at which it runs. -/
inductive CacheOp (α : Type) where
  | set (key : String) (v : α) (now : Int)
  | get (key : String) (ttl : Int) (now : Int)

/-- Run a sequence of cache operations, threading the store state. -/
def Cache.run {α : Type} (c : Cache α) : List (CacheOp α) → Cache α
  | [] => c
  | CacheOp.set k v t :: rest => (c.set k v t).run rest
  | CacheOp.get k ttl t :: rest => ((c.get k ttl t).2).run rest

/-- The store's keys are pairwise distinct (Python dict invariant). -/
def keysNodup {α : Type} (d : List (String × α)) : Prop :=
  (dictKeys d).Nodup

instance {α : Type} (d : List (String × α)) : Decidable (keysNodup d) := by
  unfold keysNodup; infer_instance

/-! ### Fetch gateway (`fetcher.py`) -/

/-- What the underlying `client.get(url)` call did: returned a response with
a status code and body, raised `httpx.HTTPStatusError`, or raised
`httpx.RequestError` (connection, timeout, malformed response). -/
inductive HttpOutcome where
  | response (status : Nat) (body : String)
  | statusError (desc : String)
  | transportError (desc : String)

/-- Result of a fetch: the retrieved document, or one of the typed failures
`NotFoundError` / `ServerError` raised by `_fetch`. -/
inductive FetchResult (α : Type) where
  | success (doc : α)
  | notFoundError (msg : String)
  | serverError (msg : String)
  deriving Repr, DecidableEq

/-- `fetcher._fetch`: classify the outcome of one outbound request.
404 raises `NotFoundError(not_found_msg)`; status ≥ 500 raises
`ServerError("Server error {code}")`; any other status ≥ 400 raises
`ServerError("HTTP error {code}")`; a transport failure raises
`ServerError` with the failure description; anything else succeeds
with the response body. -/
def fetch (o : HttpOutcome) (notFoundMsg : String) : FetchResult String :=
  match o with
  | HttpOutcome.response status body =>
    if status == 404 then FetchResult.notFoundError notFoundMsg
    else if 500 ≤ status then
      FetchResult.serverError ("Server error " ++ toString status)
    else if 400 ≤ status then
      FetchResult.serverError ("HTTP error " ++ toString status)
    else FetchResult.success body
  | HttpOutcome.statusError e => FetchResult.serverError ("HTTP error: " ++ e)
  | HttpOutcome.transportError e => FetchResult.serverError ("Network error: " ++ e)

/-- The feed URL built by `fetch_feed`. -/
def feedUrl (bearblogUrl : String) : String :=
  bearblogUrl ++ "/feed/?type=rss"

/-- `fetcher.fetch_feed`: fetch `{base}/feed/?type=rss` with the message
`"Feed not found at {url}"`, parsing the body on success (`feedparser.parse`
is the external parser, passed as a function). -/
def fetch_feed {α : Type} (bearblogUrl : String) (o : HttpOutcome)
    (parse : String → α) : FetchResult α :=
  match fetch o ("Feed not found at " ++ feedUrl bearblogUrl) with
  | FetchResult.success body => FetchResult.success (parse body)
  | FetchResult.notFoundError m => FetchResult.notFoundError m
  | FetchResult.serverError m => FetchResult.serverError m

/-- `fetcher.fetch_html`: fetch `{base}/{slug}/` with the message
`"Page not found: {slug}"`, returning the raw body on success. -/
def fetch_html (bearblogUrl slug : String) (o : HttpOutcome) : FetchResult String :=
  fetch o ("Page not found: " ++ slug)

/-! ### Handler orchestration (`__init__.py`) -/

/-- The settings fields the caching core reads (`config.Settings`),
with the source's defaults. -/
structure Settings where
  bearblogUrl : String
  blogName : String
  cacheTtlFeed : Int := 300
  cacheTtlPost : Int := 1800

/-- Protocol-level outcome of a handler: a successful body, or one of the
raised protocol failures (`xitzin.NotFound` / `xitzin.TemporaryFailure`). -/
inductive HandlerResult (α : Type) where
  | ok (body : α)
  | notFound (msg : String)
  | temporaryFailure (msg : String)
  deriving Repr, DecidableEq

/-- One handler invocation: its protocol result, the cache state it leaves
behind, and whether it invoked the fetch gateway. -/
structure HandlerStep (α : Type) where
  result : HandlerResult α
  cache : Cache α
  fetched : Bool
  deriving Repr, DecidableEq

/-- The miss path of `_get_feed`: call `fetch_feed`; on success store the
feed under `"feed"` and return it; map `ServerError` to `TemporaryFailure`
and `NotFoundError` to `NotFound`, leaving the cache untouched. -/
def feedMiss {α : Type} (c : Cache α) (now : Int) (outcome : FetchResult α) :
    HandlerStep α :=
  match outcome with
  | FetchResult.success feed =>
    { result := HandlerResult.ok feed, cache := c.set ("feed") feed now, fetched := true }
  | FetchResult.serverError m =>
    { result := HandlerResult.temporaryFailure m, cache := c, fetched := true }
  | FetchResult.notFoundError m =>
    { result := HandlerResult.notFound m, cache := c, fetched := true }

/-- `_get_feed`: `if cached := cache.get("feed", settings.cache_ttl_feed):`
returns the cached value only when it is truthy (Python truthiness of the
stored payload is the parameter `truthy`); otherwise fetch, store, return.
`outcome` is the oracle for what `fetch_feed` would do now. -/
def getFeed {α : Type} (truthy : α → Bool) (c : Cache α) (cacheTtlFeed : Int)
    (now : Int) (outcome : FetchResult α) : HandlerStep α :=
  let r := c.get ("feed") cacheTtlFeed now
  match r.1 with
  | some v => if truthy v then
      { result := HandlerResult.ok v, cache := r.2, fetched := false }
    else feedMiss r.2 now outcome
  | none => feedMiss r.2 now outcome

/-- The `_get_feed` closure created by `create_app(settings)`: it reads
`settings.cache_ttl_feed` but operates on the module-level shared cache
(`cache = Cache()` in `cache.py`, imported by `__init__.py`), which is
passed here explicitly as the shared state `c`. -/
def appGetFeed {α : Type} (s : Settings) (truthy : α → Bool) (c : Cache α)
    (now : Int) (outcome : FetchResult α) : HandlerStep α :=
  getFeed truthy c s.cacheTtlFeed now outcome

/-- The cache key `f"{content_type}:{slug}"` of `_render_content`. -/
def cacheKey (contentType slug : String) : String :=
  contentType ++ ":" ++ slug

/-- The miss path of `_render_content`: call `fetch_html`; map
`NotFoundError` to `NotFound` and `ServerError` to `TemporaryFailure`
without touching the cache; on success render the HTML (metadata
extraction, gemtext conversion and templating are the external transformer
`render`), store the gemtext under `key`, and return it. -/
def renderMiss (c : Cache String) (now : Int) (key : String)
    (outcome : FetchResult String) (render : String → String) :
    HandlerStep String :=
  match outcome with
  | FetchResult.notFoundError m =>
    { result := HandlerResult.notFound m, cache := c, fetched := true }
  | FetchResult.serverError m =>
    { result := HandlerResult.temporaryFailure m, cache := c, fetched := true }
  | FetchResult.success html =>
    { result := HandlerResult.ok (render html),
      cache := c.set key (render html) now, fetched := true }

/-- `_render_content`: `if cached := cache.get(cache_key,
settings.cache_ttl_post):` returns the cached gemtext only when it is a
truthy (nonempty) string; otherwise fetch, render, store, return. -/
def renderContent (c : Cache String) (cacheTtlPost : Int) (now : Int)
    (slug contentType : String) (outcome : FetchResult String)
    (render : String → String) : HandlerStep String :=
  let key := cacheKey contentType slug
  let r := c.get key cacheTtlPost now
  match r.1 with
  | some v => if v = "" then renderMiss r.2 now key outcome render
    else { result := HandlerResult.ok v, cache := r.2, fetched := false }
  | none => renderMiss r.2 now key outcome render

/-- The spec's eviction scenario: eleven `set`s of distinct keys at
increasing instants, against a cache of capacity 10. -/
def elevenKeyOps : List (CacheOp Nat) :=
  [CacheOp.set ("k0") 0 0, CacheOp.set ("k1") 0 1, CacheOp.set ("k2") 0 2,
   CacheOp.set ("k3") 0 3, CacheOp.set ("k4") 0 4, CacheOp.set ("k5") 0 5,
   CacheOp.set ("k6") 0 6, CacheOp.set ("k7") 0 7, CacheOp.set ("k8") 0 8,
   CacheOp.set ("k9") 0 9, CacheOp.set ("k10") 0 10]

/-- The first ten operations of the eviction scenario (they fill the cache
exactly to capacity, with no eviction yet). -/
def tenKeyOps : List (CacheOp Nat) :=
  [CacheOp.set ("k0") 0 0, CacheOp.set ("k1") 0 1, CacheOp.set ("k2") 0 2,
   CacheOp.set ("k3") 0 3, CacheOp.set ("k4") 0 4, CacheOp.set ("k5") 0 5,
   CacheOp.set ("k6") 0 6, CacheOp.set ("k7") 0 7, CacheOp.set ("k8") 0 8,
   CacheOp.set ("k9") 0 9]

/-- The store contents after the first ten operations of the scenario. -/
def tenKeyData : List (String × CacheEntry Nat) :=
  [(("k0"), CacheEntry.mk 0 0), (("k1"), CacheEntry.mk 0 1),
   (("k2"), CacheEntry.mk 0 2), (("k3"), CacheEntry.mk 0 3),
   (("k4"), CacheEntry.mk 0 4), (("k5"), CacheEntry.mk 0 5),
   (("k6"), CacheEntry.mk 0 6), (("k7"), CacheEntry.mk 0 7),
   (("k8"), CacheEntry.mk 0 8), (("k9"), CacheEntry.mk 0 9)]

/-! ### Dictionary lemmas -/

theorem dictGet_nil {α : Type} (k : String) :
    dictGet ([] : List (String × α)) k = none := rfl

theorem dictKeys_nil {α : Type} : dictKeys ([] : List (String × α)) = [] := rfl

theorem dictKeys_cons {α : Type} (p : String × α) (d : List (String × α)) :
    dictKeys (p :: d) = p.1 :: dictKeys d := rfl

theorem dictGet_cons {α : Type} (p : String × α) (d : List (String × α))
    (k : String) :
    dictGet (p :: d) k = if p.1 = k then some p.2 else dictGet d k := by
  by_cases hp : p.1 = k
  · rw [if_pos hp]
    unfold dictGet
    rw [List.find?_cons_of_pos _ (by simp [hp])]
    rfl
  · rw [if_neg hp]
    unfold dictGet
    rw [List.find?_cons_of_neg _ (by simp [hp])]

theorem dictPop_nil {α : Type} (k : String) :
    dictPop ([] : List (String × α)) k = [] := rfl

theorem dictPop_cons {α : Type} (p : String × α) (d : List (String × α))
    (k : String) :
    dictPop (p :: d) k = if p.1 = k then dictPop d k else p :: dictPop d k := by
  unfold dictPop
  rw [List.filter_cons]
  by_cases hp : p.1 = k
  · simp [hp]
  · simp [hp]

theorem dictGet_eq_none_iff {α : Type} {d : List (String × α)} {k : String} :
    dictGet d k = none ↔ k ∉ dictKeys d := by
  induction d with
  | nil => simp [dictGet_nil, dictKeys_nil]
  | cons p d ih =>
    by_cases hp : p.1 = k
    · rw [dictGet_cons, if_pos hp, dictKeys_cons, hp]
      simp
    · rw [dictGet_cons, if_neg hp, dictKeys_cons, ih]
      simp only [List.mem_cons, not_or]
      constructor
      · intro h
        exact ⟨fun he => hp he.symm, h⟩
      · intro h
        exact h.2

theorem dictGet_mem_keys {α : Type} {d : List (String × α)} {k : String}
    (h : k ∈ dictKeys d) : ∃ v, dictGet d k = some v := by
  rcases ho : dictGet d k with _ | v
  · exact absurd (dictGet_eq_none_iff.mp ho) (not_not_intro h)
  · exact ⟨v, rfl⟩

theorem dictGet_some_mem {α : Type} {d : List (String × α)} {k : String} {v : α}
    (h : dictGet d k = some v) : (k, v) ∈ d := by
  induction d with
  | nil => simp [dictGet_nil] at h
  | cons p d ih =>
    rcases p with ⟨pk, pv⟩
    rw [dictGet_cons] at h
    by_cases hp : pk = k
    · rw [if_pos hp] at h
      injection h with hv
      subst hp
      subst hv
      exact List.mem_cons_self _ _
    · rw [if_neg hp] at h
      exact List.mem_cons_of_mem _ (ih h)

theorem dictKeys_dictPop {α : Type} (d : List (String × α)) (k : String) :
    dictKeys (dictPop d k) = (dictKeys d).filter (fun x => x != k) := by
  induction d with
  | nil => rfl
  | cons p d ih =>
    rw [dictPop_cons, dictKeys_cons, List.filter_cons]
    by_cases hp : p.1 = k
    · rw [if_pos hp, if_neg (by simp [hp]), ih]
    · rw [if_neg hp, if_pos (by simp [hp]), dictKeys_cons, ih]

theorem dictPop_self {α : Type} (d : List (String × α)) (k : String) :
    dictGet (dictPop d k) k = none := by
  rw [dictGet_eq_none_iff, dictKeys_dictPop]
  simp [List.mem_filter]

theorem dictPop_of_none {α : Type} {d : List (String × α)} {k : String}
    (h : dictGet d k = none) : dictPop d k = d := by
  rw [dictGet_eq_none_iff] at h
  unfold dictPop
  rw [List.filter_eq_self]
  intro p hp
  simp only [bne_iff_ne, ne_eq, decide_eq_true_eq]
  intro hk
  exact h (List.mem_map.mpr ⟨p, hp, hk⟩)

theorem dictGet_dictPop_ne {α : Type} (d : List (String × α)) {k k1 : String}
    (h : k1 ≠ k) : dictGet (dictPop d k) k1 = dictGet d k1 := by
  induction d with
  | nil => rfl
  | cons p d ih =>
    rw [dictPop_cons]
    by_cases hp : p.1 = k
    · have hp1 : ¬ p.1 = k1 := by
        rw [hp]
        exact fun he => h he.symm
      rw [if_pos hp, ih, dictGet_cons, if_neg hp1]
    · rw [if_neg hp, dictGet_cons, dictGet_cons, ih]

theorem dictGet_dictInsert_self {α : Type} (d : List (String × α)) (k : String)
    (v : α) : dictGet (dictInsert d k v) k = some v := by
  induction d with
  | nil =>
    unfold dictInsert
    rw [if_neg (by simp)]
    rw [List.nil_append, dictGet_cons, if_pos rfl]
  | cons p d ih =>
    by_cases hp : p.1 = k
    · have hall : (p :: d).any (fun q => q.1 == k) = true := by
        simp [List.any_cons, hp]
      rw [dictInsert, if_pos hall, List.map_cons, if_pos (by simp [hp])]
      rw [dictGet_cons, if_pos rfl]
    · rcases hd : d.any (fun q => q.1 == k) with _ | _
      · have hall : ¬ (p :: d).any (fun q => q.1 == k) = true := by
          simp [List.any_cons, hp, hd]
        rw [dictInsert, if_neg hall, List.cons_append, dictGet_cons, if_neg hp]
        rw [dictInsert, if_neg (by simp [hd])] at ih
        exact ih
      · have hall : (p :: d).any (fun q => q.1 == k) = true := by
          simp [List.any_cons, hd]
        rw [dictInsert, if_pos hall, List.map_cons, if_neg (by simp [hp])]
        rw [dictGet_cons, if_neg hp]
        rw [dictInsert, if_pos hd] at ih
        exact ih

theorem dictGet_eq_none_iff_any {α : Type} {d : List (String × α)} {k : String} :
    dictGet d k = none ↔ d.any (fun p => p.1 == k) = false := by
  induction d with
  | nil => simp [dictGet_nil]
  | cons p d ih =>
    by_cases hp : p.1 = k
    · rw [dictGet_cons, if_pos hp]
      simp [List.any_cons, hp]
    · rw [dictGet_cons, if_neg hp, ih]
      simp [List.any_cons, hp]

theorem dictKeys_dictInsert_present {α : Type} {d : List (String × α)}
    {k : String} (v : α) (h : d.any (fun p => p.1 == k) = true) :
    dictKeys (dictInsert d k v) = dictKeys d := by
  unfold dictInsert dictKeys
  rw [if_pos h, List.map_map]
  refine List.map_congr_left ?_
  intro p _
  by_cases hp : p.1 = k
  · simp [hp]
  · simp [hp]

theorem dictKeys_dictInsert_absent {α : Type} {d : List (String × α)}
    {k : String} (v : α) (h : d.any (fun p => p.1 == k) = false) :
    dictKeys (dictInsert d k v) = dictKeys d ++ [k] := by
  unfold dictInsert dictKeys
  rw [if_neg (by simp [h]), List.map_append]
  rfl

theorem keysNodup_dictInsert {α : Type} {d : List (String × α)} {k : String}
    (v : α) (h : keysNodup d) : keysNodup (dictInsert d k v) := by
  unfold keysNodup at h ⊢
  rcases ha : d.any (fun p => p.1 == k) with _ | _
  · rw [dictKeys_dictInsert_absent v ha, List.nodup_append]
    refine ⟨h, List.nodup_singleton k, ?_⟩
    intro x hx hk
    rw [List.mem_singleton] at hk
    subst hk
    exact absurd hx (dictGet_eq_none_iff.mp (dictGet_eq_none_iff_any.mpr ha))
  · rw [dictKeys_dictInsert_present v ha]
    exact h

theorem dictPop_sublist {α : Type} (d : List (String × α)) (k : String) :
    (dictPop d k).Sublist d :=
  List.filter_sublist d

theorem foldl_dictPop_sublist {α : Type} (ks : List String) :
    ∀ d : List (String × α), (ks.foldl dictPop d).Sublist d := by
  induction ks with
  | nil => intro d; exact List.Sublist.refl d
  | cons k ks ih =>
    intro d
    exact List.Sublist.trans (ih (dictPop d k)) (dictPop_sublist d k)

theorem keysNodup_of_sublist {α : Type} {d1 d2 : List (String × α)}
    (hs : d1.Sublist d2) (h : keysNodup d2) : keysNodup d1 := by
  unfold keysNodup dictKeys at h ⊢
  exact List.Nodup.sublist (List.Sublist.map (fun p => p.1) hs) h

theorem length_dictPop_le {α : Type} (d : List (String × α)) (k : String) :
    (dictPop d k).length ≤ d.length :=
  List.length_filter_le _ d

theorem length_dictPop_lt {α : Type} {d : List (String × α)} {k : String} {v : α}
    (h : dictGet d k = some v) : (dictPop d k).length < d.length := by
  unfold dictPop
  rw [List.length_filter_lt_length_iff_exists]
  exact ⟨(k, v), dictGet_some_mem h, by simp⟩

theorem length_foldl_dictPop_le {α : Type} (ks : List String)
    (d : List (String × α)) : (ks.foldl dictPop d).length ≤ d.length :=
  List.Sublist.length_le (foldl_dictPop_sublist ks d)

theorem length_dictInsert_le {α : Type} (d : List (String × α)) (k : String)
    (v : α) : (dictInsert d k v).length ≤ d.length + 1 := by
  unfold dictInsert
  by_cases ha : d.any (fun p => p.1 == k) = true
  · rw [if_pos ha, List.length_map]
    exact Nat.le_succ _
  · rw [if_neg ha, List.length_append]
    simp

theorem length_dictInsert_absent {α : Type} {d : List (String × α)} {k : String}
    (v : α) (h : dictGet d k = none) :
    (dictInsert d k v).length = d.length + 1 := by
  unfold dictInsert
  rw [if_neg (by simp [dictGet_eq_none_iff_any.mp h]), List.length_append]
  rfl

theorem length_dictPop_of_nodup {α : Type} {d : List (String × α)} {k : String}
    (hnd : keysNodup d) (h : k ∈ dictKeys d) :
    (dictPop d k).length + 1 = d.length := by
  induction d with
  | nil => simp [dictKeys_nil] at h
  | cons p d ih =>
    rw [dictKeys_cons] at h
    unfold keysNodup at hnd
    rw [dictKeys_cons, List.nodup_cons] at hnd
    rw [dictPop_cons]
    by_cases hp : p.1 = k
    · rw [if_pos hp]
      have hnot : dictGet d k = none := by
        rw [dictGet_eq_none_iff, ← hp]
        exact hnd.1
      rw [dictPop_of_none hnot, List.length_cons]
    · rw [if_neg hp, List.length_cons, List.length_cons]
      have hk : k ∈ dictKeys d := by
        rcases List.mem_cons.mp h with he | hm
        · exact absurd he.symm hp
        · exact hm
      rw [ih hnd.2 hk]

theorem length_foldl_dictPop_of_nodup {α : Type} (ks : List String) :
    ∀ d : List (String × α), ks.Nodup → keysNodup d →
    (∀ k ∈ ks, k ∈ dictKeys d) →
    (ks.foldl dictPop d).length + ks.length = d.length := by
  induction ks with
  | nil => intro d _ _ _; simp
  | cons k ks ih =>
    intro d hks hnd hmem
    rw [List.nodup_cons] at hks
    have hk : k ∈ dictKeys d := hmem k (List.mem_cons_self _ _)
    have hstep : (dictPop d k).length + 1 = d.length :=
      length_dictPop_of_nodup hnd hk
    have hnd1 : keysNodup (dictPop d k) :=
      keysNodup_of_sublist (dictPop_sublist d k) hnd
    have hmem1 : ∀ k1 ∈ ks, k1 ∈ dictKeys (dictPop d k) := by
      intro k1 hk1
      rw [dictKeys_dictPop, List.mem_filter]
      have hne : k1 ≠ k := fun he => hks.1 (he ▸ hk1)
      exact ⟨hmem k1 (List.mem_cons_of_mem _ hk1), by simp [hne]⟩
    have := ih (dictPop d k) hks.2 hnd1 hmem1
    rw [List.foldl_cons, List.length_cons]
    omega

theorem foldl_dictPop_eq_filter {α : Type} (ks : List String) :
    ∀ d : List (String × α),
    ks.foldl dictPop d = d.filter (fun p => !(ks.contains p.1)) := by
  induction ks with
  | nil =>
    intro d
    simp
  | cons k ks ih =>
    intro d
    rw [List.foldl_cons, ih (dictPop d k)]
    unfold dictPop
    rw [List.filter_filter]
    refine List.filter_congr ?_
    intro p _
    rw [List.contains_cons]
    by_cases hp : p.1 = k
    · simp [hp]
    · rcases hmem : decide (p.1 ∈ ks) with _ | _ <;> simp [hp, hmem, bne]

/-! ### Cache operation lemmas -/

theorem Cache.get_of_absent {α : Type} {c : Cache α} {k : String}
    (ttl now : Int) (h : dictGet c.data k = none) :
    c.get k ttl now = (none, c) := by
  unfold Cache.get
  rw [h]

theorem Cache.get_of_fresh {α : Type} {c : Cache α} {k : String}
    {e : CacheEntry α} {ttl now : Int} (h : dictGet c.data k = some e)
    (hf : now - e.timestamp < ttl) : c.get k ttl now = (some e.value, c) := by
  unfold Cache.get
  rw [h]
  dsimp only
  rw [if_pos hf]

theorem Cache.get_of_expired {α : Type} {c : Cache α} {k : String}
    {e : CacheEntry α} {ttl now : Int} (h : dictGet c.data k = some e)
    (hf : ¬ now - e.timestamp < ttl) :
    c.get k ttl now = (none, { c with data := dictPop c.data k }) := by
  unfold Cache.get
  rw [h]
  dsimp only
  rw [if_neg hf]

theorem Cache.get_none_not_stored {α : Type} {c : Cache α} {k : String}
    {ttl now : Int} (h : (c.get k ttl now).1 = none) :
    dictGet ((c.get k ttl now).2).data k = none := by
  rcases hd : dictGet c.data k with _ | e
  · rw [Cache.get_of_absent ttl now hd]
    exact hd
  · by_cases hf : now - e.timestamp < ttl
    · rw [Cache.get_of_fresh hd hf] at h
      simp at h
    · rw [Cache.get_of_expired hd hf]
      exact dictPop_self _ _

theorem Cache.get_some_inv {α : Type} {c : Cache α} {k : String} {v : α}
    {ttl now : Int} (h : (c.get k ttl now).1 = some v) :
    (c.get k ttl now).2 = c ∧
    ∃ e, dictGet c.data k = some e ∧ e.value = v ∧ now - e.timestamp < ttl := by
  rcases hd : dictGet c.data k with _ | e
  · rw [Cache.get_of_absent ttl now hd] at h
    simp at h
  · by_cases hf : now - e.timestamp < ttl
    · constructor
      · rw [Cache.get_of_fresh hd hf]
      · refine ⟨e, rfl, ?_, hf⟩
        rw [Cache.get_of_fresh hd hf] at h
        exact Option.some.inj h
    · rw [Cache.get_of_expired hd hf] at h
      simp at h

theorem Cache.get_data_sublist {α : Type} (c : Cache α) (k : String)
    (ttl now : Int) : ((c.get k ttl now).2).data.Sublist c.data := by
  rcases hd : dictGet c.data k with _ | e
  · rw [Cache.get_of_absent ttl now hd]
  · by_cases hf : now - e.timestamp < ttl
    · rw [Cache.get_of_fresh hd hf]
    · rw [Cache.get_of_expired hd hf]
      exact dictPop_sublist c.data k

theorem Cache.get_maxSize {α : Type} (c : Cache α) (k : String)
    (ttl now : Int) : ((c.get k ttl now).2).maxSize = c.maxSize := by
  rcases hd : dictGet c.data k with _ | e
  · rw [Cache.get_of_absent ttl now hd]
  · by_cases hf : now - e.timestamp < ttl
    · rw [Cache.get_of_fresh hd hf]
    · rw [Cache.get_of_expired hd hf]

theorem foldl_dictPop_nil {α : Type} (ks : List String) :
    ks.foldl dictPop ([] : List (String × α)) = [] := by
  induction ks with
  | nil => rfl
  | cons k ks ih => rw [List.foldl_cons, dictPop_nil, ih]

theorem Cache.evict_maxSize {α : Type} (c : Cache α) :
    (c.evictIfFull).maxSize = c.maxSize := by
  unfold Cache.evictIfFull
  split <;> rfl

theorem Cache.evict_data_sublist {α : Type} (c : Cache α) :
    (c.evictIfFull).data.Sublist c.data := by
  unfold Cache.evictIfFull
  split
  · exact foldl_dictPop_sublist _ c.data
  · exact List.Sublist.refl c.data

theorem Cache.evict_not_triggered {α : Type} {c : Cache α}
    (h : c.data.length < c.maxSize) : c.evictIfFull = c := by
  unfold Cache.evictIfFull
  rw [if_neg (by omega)]

theorem Cache.evict_of_nil {α : Type} {c : Cache α} (h : c.data = []) :
    c.evictIfFull = c := by
  unfold Cache.evictIfFull
  split
  · rw [h, foldl_dictPop_nil]
    rcases c with ⟨d, m⟩
    simp at h
    rw [h]
  · rfl

theorem evictCount_eq_max (n : Nat) : evictCount n = max 1 (n / 10) := by
  unfold evictCount
  split <;> omega

theorem evictCount_le {n : Nat} (h : 1 ≤ n) : evictCount n ≤ n := by
  unfold evictCount
  split <;> omega

theorem one_le_evictCount (n : Nat) : 1 ≤ evictCount n := by
  unfold evictCount
  split <;> omega

theorem sortedKeys_length {α : Type} (c : Cache α) :
    (dictKeys (c.data.mergeSort tsLe)).length = c.data.length := by
  unfold dictKeys
  rw [List.length_map, List.length_mergeSort]

theorem removedKeys_length {α : Type} {c : Cache α} (h1 : 1 ≤ c.data.length) :
    (removedKeys c).length = evictCount c.data.length := by
  unfold removedKeys
  rw [List.length_take, sortedKeys_length]
  exact min_eq_left (evictCount_le h1)

theorem sortedKeys_perm {α : Type} (c : Cache α) :
    (dictKeys (c.data.mergeSort tsLe)).Perm (dictKeys c.data) := by
  unfold dictKeys
  exact List.Perm.map (fun p => p.1) (List.mergeSort_perm c.data tsLe)

theorem removedKeys_nodup {α : Type} {c : Cache α} (hnd : keysNodup c.data) :
    (removedKeys c).Nodup := by
  have hsorted : (dictKeys (c.data.mergeSort tsLe)).Nodup :=
    (List.Perm.nodup_iff (sortedKeys_perm c)).mpr hnd
  exact List.Nodup.sublist (List.take_sublist _ _) hsorted

theorem removedKeys_mem {α : Type} {c : Cache α} {k : String}
    (h : k ∈ removedKeys c) : k ∈ dictKeys c.data := by
  have hs : k ∈ dictKeys (c.data.mergeSort tsLe) :=
    List.Sublist.mem h (List.take_sublist _ _)
  exact (List.Perm.mem_iff (sortedKeys_perm c)).mp hs

theorem Cache.evict_exact {α : Type} {c : Cache α}
    (h : c.maxSize ≤ c.data.length) (h1 : 1 ≤ c.data.length)
    (hnd : keysNodup c.data) :
    (c.evictIfFull).data.length + evictCount c.data.length = c.data.length := by
  unfold Cache.evictIfFull
  rw [if_pos h]
  have hlen := length_foldl_dictPop_of_nodup (removedKeys c) c.data
    (removedKeys_nodup hnd) hnd (fun k hk => removedKeys_mem hk)
  rw [removedKeys_length h1] at hlen
  exact hlen

theorem Cache.set_stores {α : Type} (c : Cache α) (k : String) (v : α)
    (now : Int) :
    dictGet ((c.set k v now).data) k = some { value := v, timestamp := now } :=
  dictGet_dictInsert_self _ k _

theorem Cache.set_maxSize {α : Type} (c : Cache α) (k : String) (v : α)
    (now : Int) : (c.set k v now).maxSize = c.maxSize :=
  Cache.evict_maxSize c

theorem keysNodup_evict {α : Type} {c : Cache α} (h : keysNodup c.data) :
    keysNodup ((c.evictIfFull).data) :=
  keysNodup_of_sublist (Cache.evict_data_sublist c) h

theorem keysNodup_set {α : Type} {c : Cache α} (k : String) (v : α) (now : Int)
    (h : keysNodup c.data) : keysNodup ((c.set k v now).data) :=
  keysNodup_dictInsert _ (keysNodup_evict h)

theorem keysNodup_get {α : Type} {c : Cache α} (k : String) (ttl now : Int)
    (h : keysNodup c.data) : keysNodup (((c.get k ttl now).2).data) :=
  keysNodup_of_sublist (Cache.get_data_sublist c k ttl now) h

theorem Cache.set_length_le {α : Type} {c : Cache α} (k : String) (v : α)
    (now : Int) (hms : 1 ≤ c.maxSize) (h : c.data.length ≤ c.maxSize)
    (hnd : keysNodup c.data) : (c.set k v now).data.length ≤ c.maxSize := by
  have hins := length_dictInsert_le ((c.evictIfFull).data) k
    (CacheEntry.mk v now)
  have hset : (c.set k v now).data =
      dictInsert ((c.evictIfFull).data) k (CacheEntry.mk v now) := rfl
  rw [hset]
  by_cases hfull : c.maxSize ≤ c.data.length
  · have h1 : 1 ≤ c.data.length := le_trans hms hfull
    have hev := Cache.evict_exact hfull h1 hnd
    have hcnt := one_le_evictCount c.data.length
    omega
  · rw [Cache.evict_not_triggered (by omega)] at hins ⊢
    omega

theorem Cache.run_invariant {α : Type} (ops : List (CacheOp α)) :
    ∀ c : Cache α, 1 ≤ c.maxSize → c.data.length ≤ c.maxSize →
    keysNodup c.data →
    (c.run ops).maxSize = c.maxSize ∧ (c.run ops).data.length ≤ c.maxSize ∧
    keysNodup ((c.run ops).data) := by
  induction ops with
  | nil => intro c _ h hnd; exact ⟨rfl, h, hnd⟩
  | cons op ops ih =>
    intro c hms h hnd
    rcases op with ⟨k, v, t⟩ | ⟨k, ttl, t⟩
    · have hmax := Cache.set_maxSize c k v t
      have hstep := ih (c.set k v t) (hmax ▸ hms)
        (hmax ▸ Cache.set_length_le k v t hms h hnd) (keysNodup_set k v t hnd)
      rw [Cache.run]
      exact ⟨hstep.1.trans hmax, hmax ▸ hstep.2.1, hstep.2.2⟩
    · have hmax := Cache.get_maxSize c k ttl t
      have hlen : ((c.get k ttl t).2).data.length ≤ c.maxSize :=
        le_trans (List.Sublist.length_le (Cache.get_data_sublist c k ttl t)) h
      have hstep := ih ((c.get k ttl t).2) (hmax ▸ hms) (hmax ▸ hlen)
        (keysNodup_get k ttl t hnd)
      rw [Cache.run]
      exact ⟨hstep.1.trans hmax, hmax ▸ hstep.2.1, hstep.2.2⟩

/-! ### Eviction selects the oldest entries -/

theorem removedKeys_def {α : Type} (c : Cache α) :
    removedKeys c = (dictKeys (c.data.mergeSort tsLe)).take
      (evictCount (dictKeys (c.data.mergeSort tsLe)).length) := rfl

theorem dictKeys_take {α : Type} (d : List (String × α)) (n : Nat) :
    dictKeys (d.take n) = (dictKeys d).take n := by
  unfold dictKeys
  rw [List.map_take]

theorem tsLe_trans {α : Type} (a b c : String × CacheEntry α)
    (hab : tsLe a b = true) (hbc : tsLe b c = true) : tsLe a c = true := by
  unfold tsLe at hab hbc ⊢
  simp only [decide_eq_true_eq] at hab hbc ⊢
  omega

theorem tsLe_total {α : Type} (a b : String × CacheEntry α) :
    (tsLe a b || tsLe b a) = true := by
  unfold tsLe
  simp only [Bool.or_eq_true, decide_eq_true_eq]
  omega

theorem mergeSort_tsLe_pairwise {α : Type} (d : List (String × CacheEntry α)) :
    List.Pairwise (fun a b => tsLe a b = true) (d.mergeSort tsLe) :=
  List.sorted_mergeSort tsLe_trans tsLe_total d

theorem eq_of_keysNodup {α : Type} {d : List (String × α)} {p q : String × α}
    (hnd : keysNodup d) (hp : p ∈ d) (hq : q ∈ d) (hk : p.1 = q.1) : p = q := by
  induction d with
  | nil => cases hp
  | cons a d ih =>
    unfold keysNodup at hnd
    rw [dictKeys_cons, List.nodup_cons] at hnd
    rcases List.mem_cons.mp hp with hpa | hpd
    · rcases List.mem_cons.mp hq with hqa | hqd
      · rw [hpa, hqa]
      · exfalso
        apply hnd.1
        have : q.1 ∈ dictKeys d := List.mem_map_of_mem (fun r => r.1) hqd
        rw [← hk, hpa] at this
        exact this
    · rcases List.mem_cons.mp hq with hqa | hqd
      · exfalso
        apply hnd.1
        have : p.1 ∈ dictKeys d := List.mem_map_of_mem (fun r => r.1) hpd
        rw [hk, hqa] at this
        exact this
      · exact ih hnd.2 hpd hqd

theorem contains_eq_false_iff (l : List String) (a : String) :
    l.contains a = false ↔ a ∉ l := by
  rw [List.contains_eq_any_beq, List.any_eq_false]
  simp only [beq_iff_eq]
  constructor
  · intro h hm
    exact h a hm rfl
  · intro h x hx he
    rw [he] at h
    exact h hx

theorem Cache.evict_data_eq_filter {α : Type} {c : Cache α}
    (h : c.maxSize ≤ c.data.length) :
    (c.evictIfFull).data =
    c.data.filter (fun p => !((removedKeys c).contains p.1)) := by
  unfold Cache.evictIfFull
  rw [if_pos h]
  exact foldl_dictPop_eq_filter (removedKeys c) c.data

theorem Cache.mem_evict_iff {α : Type} {c : Cache α}
    (h : c.maxSize ≤ c.data.length) {p : String × CacheEntry α}
    (hp : p ∈ c.data) :
    p ∈ (c.evictIfFull).data ↔ p.1 ∉ removedKeys c := by
  rw [Cache.evict_data_eq_filter h, List.mem_filter]
  constructor
  · rintro ⟨_, hc⟩
    rw [Bool.not_eq_true'] at hc
    exact (contains_eq_false_iff _ _).mp hc
  · intro hnc
    refine ⟨hp, ?_⟩
    rw [Bool.not_eq_true']
    exact (contains_eq_false_iff _ _).mpr hnc

theorem Cache.evict_oldest {α : Type} {c : Cache α}
    (h : c.maxSize ≤ c.data.length) (hnd : keysNodup c.data) :
    ∀ p ∈ c.data, p.1 ∈ removedKeys c →
    ∀ q ∈ (c.evictIfFull).data, p.2.timestamp ≤ q.2.timestamp := by
  intro p hp hpk q hq
  have hperm : (c.data.mergeSort tsLe).Perm c.data :=
    List.mergeSort_perm c.data tsLe
  -- Work with the sorted entry list and the cut point.
  rw [removedKeys_def, ← dictKeys_take] at hpk
  rcases List.mem_map.mp hpk with ⟨p2, hp2take, hp2k⟩
  have hp2mem : p2 ∈ c.data :=
    (List.Perm.mem_iff hperm).mp (List.Sublist.mem hp2take (List.take_sublist _ _))
  have hpeq : p = p2 := eq_of_keysNodup hnd hp hp2mem hp2k.symm
  -- The surviving entry sits in the dropped (younger) part of the sort.
  have hqdata : q ∈ c.data :=
    List.Sublist.mem hq (Cache.evict_data_sublist c)
  have hqnotrem : q.1 ∉ removedKeys c := (Cache.mem_evict_iff h hqdata).mp hq
  have hqsort : q ∈ c.data.mergeSort tsLe := (List.Perm.mem_iff hperm).mpr hqdata
  set cnt := evictCount (dictKeys (c.data.mergeSort tsLe)).length with hcnt
  have hqdrop : q ∈ (c.data.mergeSort tsLe).drop cnt := by
    rcases List.mem_append.mp
      (by rw [List.take_append_drop cnt (c.data.mergeSort tsLe)]; exact hqsort) with
      hqt | hqd
    · exfalso
      apply hqnotrem
      rw [removedKeys_def, ← dictKeys_take]
      exact List.mem_map_of_mem (fun r => r.1) hqt
    · exact hqd
  have hpw := mergeSort_tsLe_pairwise c.data
  rw [← List.take_append_drop cnt (c.data.mergeSort tsLe),
    List.pairwise_append] at hpw
  have hts : tsLe p2 q = true := hpw.2.2 p2 hp2take q hqdrop
  unfold tsLe at hts
  rw [hpeq]
  exact of_decide_eq_true hts

/-! ### Handler lemmas -/

theorem renderContent_of_hit {c : Cache String} {ttl now : Int}
    {slug contentType : String} {v : String}
    (outcome : FetchResult String) (render : String → String)
    (h : (c.get (cacheKey contentType slug) ttl now).1 = some v)
    (hv : ¬ v = "") :
    renderContent c ttl now slug contentType outcome render =
    { result := HandlerResult.ok v,
      cache := (c.get (cacheKey contentType slug) ttl now).2,
      fetched := false } := by
  unfold renderContent
  dsimp only
  rw [h]
  dsimp only
  rw [if_neg hv]

theorem renderContent_of_falsy {c : Cache String} {ttl now : Int}
    {slug contentType : String}
    (outcome : FetchResult String) (render : String → String)
    (h : (c.get (cacheKey contentType slug) ttl now).1 = some "") :
    renderContent c ttl now slug contentType outcome render =
    renderMiss ((c.get (cacheKey contentType slug) ttl now).2) now
      (cacheKey contentType slug) outcome render := by
  unfold renderContent
  dsimp only
  rw [h]
  dsimp only
  rw [if_pos rfl]

theorem renderContent_of_none {c : Cache String} {ttl now : Int}
    {slug contentType : String}
    (outcome : FetchResult String) (render : String → String)
    (h : (c.get (cacheKey contentType slug) ttl now).1 = none) :
    renderContent c ttl now slug contentType outcome render =
    renderMiss ((c.get (cacheKey contentType slug) ttl now).2) now
      (cacheKey contentType slug) outcome render := by
  unfold renderContent
  dsimp only
  rw [h]

theorem getFeed_of_hit {α : Type} {truthy : α → Bool} {c : Cache α}
    {ttl now : Int} {v : α} (outcome : FetchResult α)
    (h : (c.get ("feed") ttl now).1 = some v) (hv : truthy v = true) :
    getFeed truthy c ttl now outcome =
    { result := HandlerResult.ok v, cache := (c.get ("feed") ttl now).2,
      fetched := false } := by
  unfold getFeed
  dsimp only
  rw [h]
  dsimp only
  rw [hv]
  rfl

theorem getFeed_of_falsy {α : Type} {truthy : α → Bool} {c : Cache α}
    {ttl now : Int} {v : α} (outcome : FetchResult α)
    (h : (c.get ("feed") ttl now).1 = some v) (hv : truthy v = false) :
    getFeed truthy c ttl now outcome =
    feedMiss ((c.get ("feed") ttl now).2) now outcome := by
  unfold getFeed
  dsimp only
  rw [h]
  dsimp only
  rw [hv]
  rfl

theorem getFeed_of_none {α : Type} {truthy : α → Bool} {c : Cache α}
    {ttl now : Int} (outcome : FetchResult α)
    (h : (c.get ("feed") ttl now).1 = none) :
    getFeed truthy c ttl now outcome =
    feedMiss ((c.get ("feed") ttl now).2) now outcome := by
  unfold getFeed
  dsimp only
  rw [h]

/-! ### Claim theorems -/

/-- C1: for a stored entry `(v, t0)` under key `k` and TTL `t ≥ 0`,
`Cache.get(k, t)` at instant `now` returns `v` iff `now - t0 < t`;
otherwise it returns absent and removes the entry as a side effect of the
read; in particular `get(k, 0)` at any `now ≥ t0` (so immediately after the
`set` that wrote the entry) returns absent; a `get` for an absent key
returns absent and leaves the store untouched; and removing an
already-absent key (`pop(key, None)`) is a no-op, never an error. -/
theorem ttl_get_semantics {α : Type} (c : Cache α) (k : String) (v : α)
    (t0 t now : Int) (ht : 0 ≤ t)
    (hk : dictGet c.data k = some { value := v, timestamp := t0 }) :
    ((c.get k t now).1 = some v ↔ now - t0 < t) ∧
    (¬ now - t0 < t → (c.get k t now).1 = none ∧
      dictGet ((c.get k t now).2).data k = none) ∧
    (t0 ≤ now → (c.get k 0 now).1 = none) ∧
    (∀ k1, dictGet c.data k1 = none → c.get k1 t now = (none, c)) ∧
    (∀ (d : List (String × CacheEntry α)) (k1 : String),
      dictGet d k1 = none → dictPop d k1 = d) := by
  refine ⟨⟨?_, ?_⟩, ?_, ?_, ?_, ?_⟩
  · intro hsome
    by_contra hn
    rw [Cache.get_of_expired hk hn] at hsome
    simp at hsome
  · intro hlt
    rw [Cache.get_of_fresh hk hlt]
  · intro hn
    rw [Cache.get_of_expired hk hn]
    exact ⟨rfl, dictPop_self c.data k⟩
  · intro h0
    have hn : ¬ now - t0 < 0 := by omega
    rw [Cache.get_of_expired hk hn]
  · intro k1 h1
    exact Cache.get_of_absent t now h1
  · intro d k1 h1
    exact dictPop_of_none h1

/-- Witness for `ttl_get_semantics`: a concrete store holding `(5, 100)`
under key `k`, read with TTL 7 at instants 103 (fresh) and 110 (expired). -/
theorem ttl_get_semantics_witness :
    ((0:Int) ≤ 7) ∧
    (dictGet (Cache.mk [(("k"), { value := (5:Nat), timestamp := 100 })] 10).data
      ("k") = some { value := 5, timestamp := 100 }) ∧
    (((Cache.mk [(("k"), { value := (5:Nat), timestamp := 100 })] 10).get
      ("k") 7 103).1 = some 5 ↔ (103:Int) - 100 < 7) :=
  ⟨by decide, rfl,
    (ttl_get_semantics (Cache.mk [(("k"), { value := (5:Nat), timestamp := 100 })] 10)
      ("k") 5 100 7 103 (by decide) rfl).1⟩

/-- C4: `Cache.set` is unconditional: it always stores the entry under the
key with the current timestamp, overwriting any prior entry under the same
key; key uniqueness of the store is preserved (at most one entry per key);
and after `set(k, v1)` then `set(k, v2)`, a `get` of `k` with any TTL at
any instant returns `v2` or absent — never `v1`. -/
theorem set_unconditional_overwrite {α : Type} (c : Cache α) (k : String)
    (v v1 v2 : α) (now t1 t2 : Int) (hnd : keysNodup c.data) :
    (dictGet ((c.set k v now).data) k = some { value := v, timestamp := now }) ∧
    keysNodup ((c.set k v now).data) ∧
    (∀ ttl now2, (((c.set k v1 t1).set k v2 t2).get k ttl now2).1 = some v2 ∨
      (((c.set k v1 t1).set k v2 t2).get k ttl now2).1 = none) := by
  refine ⟨Cache.set_stores c k v now, keysNodup_set k v now hnd, ?_⟩
  intro ttl now2
  have hs := Cache.set_stores (c.set k v1 t1) k v2 t2
  by_cases hf : now2 - t2 < ttl
  · left
    rw [Cache.get_of_fresh hs hf]
  · right
    rw [Cache.get_of_expired hs hf]

/-- Witness for `set_unconditional_overwrite`: overwriting key `k` on a
concrete two-entry store. -/
theorem set_unconditional_overwrite_witness :
    keysNodup (Cache.mk [(("a"), { value := (1:Nat), timestamp := 0 })] 10).data ∧
    dictGet (((Cache.mk [(("a"), { value := (1:Nat), timestamp := 0 })] 10).set
      ("k") 2 5).data) ("k") = some { value := 2, timestamp := 5 } :=
  ⟨by decide,
    (set_unconditional_overwrite
      (Cache.mk [(("a"), { value := (1:Nat), timestamp := 0 })] 10)
      ("k") 2 3 4 5 6 7 (by decide)).1⟩

/-- C5: `_fetch` classification, uniformly for every request: status 404
yields `NotFoundError` carrying exactly the caller-supplied message (the
resource-specific one built by `fetch_feed` / `fetch_html`, not the
upstream body); status ≥ 500, and any other status ≥ 400, yield
`ServerError` carrying the status code; a transport-level failure yields
`ServerError` carrying the underlying failure description; any other
response yields `Success` with the retrieved content. -/
theorem fetch_classification (status : Nat)
    (body nfMsg desc bearblogUrl slug : String) (parse : String → Nat) :
    (fetch (HttpOutcome.response 404 body) nfMsg =
      FetchResult.notFoundError nfMsg) ∧
    (500 ≤ status →
      fetch (HttpOutcome.response status body) nfMsg =
        FetchResult.serverError ("Server error " ++ toString status)) ∧
    (400 ≤ status → status < 500 → ¬ status = 404 →
      fetch (HttpOutcome.response status body) nfMsg =
        FetchResult.serverError ("HTTP error " ++ toString status)) ∧
    (fetch (HttpOutcome.statusError desc) nfMsg =
      FetchResult.serverError ("HTTP error: " ++ desc)) ∧
    (fetch (HttpOutcome.transportError desc) nfMsg =
      FetchResult.serverError ("Network error: " ++ desc)) ∧
    (status < 400 →
      fetch (HttpOutcome.response status body) nfMsg =
        FetchResult.success body) ∧
    (fetch_html bearblogUrl slug (HttpOutcome.response 404 body) =
      FetchResult.notFoundError ("Page not found: " ++ slug)) ∧
    (fetch_feed bearblogUrl (HttpOutcome.response 404 body) parse =
      FetchResult.notFoundError ("Feed not found at " ++ feedUrl bearblogUrl)) := by
  refine ⟨rfl, ?_, ?_, rfl, rfl, ?_, rfl, rfl⟩
  · intro h5
    unfold fetch
    dsimp only
    rw [if_neg (by simp only [beq_iff_eq]; omega), if_pos h5]
  · intro h4 h45 h404
    unfold fetch
    dsimp only
    rw [if_neg (by simp only [beq_iff_eq]; omega),
      if_neg (by omega), if_pos h4]
  · intro hlt
    unfold fetch
    dsimp only
    rw [if_neg (by simp only [beq_iff_eq]; omega),
      if_neg (by omega), if_neg (by omega)]

/-- Witness for `fetch_classification`: statuses 502 (server error) and
403 (client error) on concrete messages. -/
theorem fetch_classification_witness :
    (fetch (HttpOutcome.response 502 ("oops")) ("nf") =
      FetchResult.serverError ("Server error " ++ toString 502)) ∧
    (fetch (HttpOutcome.response 403 ("oops")) ("nf") =
      FetchResult.serverError ("HTTP error " ++ toString 403)) :=
  ⟨(fetch_classification 502 ("oops") ("nf") ("d") ("http://b") ("s")
      (fun _ => 0)).2.1 (by decide),
    (fetch_classification 403 ("oops") ("nf") ("d") ("http://b") ("s")
      (fun _ => 0)).2.2.1 (by decide) (by decide) (by decide)⟩

/-- C2 counterexample: the claim quantifies over caches constructed with
any `max_size`; with `max_size = 0`, a single `set` on the fresh cache
leaves 1 entry, exceeding `max_size` — eviction triggers (0 ≥ 0) but the
slice of an empty key list removes nothing. -/
theorem set_size_bound_counterexample :
    (((Cache.init 0 : Cache Nat).set ("k") 7 0).data.length = 1) ∧
    ¬ (((Cache.init 0 : Cache Nat).set ("k") 7 0).data.length ≤
      (Cache.init 0 : Cache Nat).maxSize) := by
  have h1 : ((Cache.init 0 : Cache Nat).set ("k") 7 0).data =
      dictInsert (((Cache.init 0 : Cache Nat).evictIfFull).data) ("k")
        (CacheEntry.mk 7 0) := rfl
  have h2 : (Cache.init 0 : Cache Nat).evictIfFull = Cache.init 0 :=
    Cache.evict_of_nil rfl
  rw [h1, h2]
  exact ⟨by decide, by decide⟩

/-- C2 (amended): for every `max_size ≥ 1`, every sequence of `set`/`get`
operations starting from a fresh cache, and every further `set`,
the store holds at most `max_size` entries immediately after that `set`
completes (eviction runs before insertion inside `set`). The original
claim's "any max_size" fails only at `max_size = 0`, where eviction
triggers on an empty store and removes nothing — see the counterexample. -/
theorem set_size_bound_amended {α : Type} (ms : Nat) (hms : 1 ≤ ms)
    (ops : List (CacheOp α)) (k : String) (v : α) (t : Int) :
    (((Cache.init ms : Cache α).run ops).set k v t).data.length ≤ ms := by
  have hinv := Cache.run_invariant ops (Cache.init ms) hms
    (by simp [Cache.init]) (by simp [keysNodup, Cache.init, dictKeys])
  have hm : ((Cache.init ms : Cache α).run ops).maxSize = ms := hinv.1
  have hb := Cache.set_length_le k v t (by rw [hm]; exact hms)
    (by rw [hm]; exact hinv.2.1) hinv.2.2
  rw [hm] at hb
  exact hb

/-- Witness for `set_size_bound_amended`: capacity 2, two inserts and a
third one that must evict first. -/
theorem set_size_bound_amended_witness :
    (1 ≤ 2) ∧
    (((Cache.init 2 : Cache Nat).run
      [CacheOp.set ("a") 1 0, CacheOp.set ("b") 2 1]).set ("c") 3 2).data.length ≤ 2 :=
  ⟨by decide,
    set_size_bound_amended 2 (by decide)
      [CacheOp.set ("a") 1 0, CacheOp.set ("b") 2 1] ("c") 3 2⟩

/-- C3 counterexample: with `max_size = 0` eviction triggers on the empty
store (its size, 0, is at `max_size`) yet removes 0 entries — not the
claimed `max(1, size // 10) = 1`; no entry can be removed at all. -/
theorem evict_exact_count_counterexample :
    ((Cache.init 0 : Cache Nat).maxSize ≤ (Cache.init 0 : Cache Nat).data.length) ∧
    (((Cache.init 0 : Cache Nat).evictIfFull).data.length =
      (Cache.init 0 : Cache Nat).data.length) ∧
    ((Cache.init 0 : Cache Nat).data.length -
      ((Cache.init 0 : Cache Nat).evictIfFull).data.length = 0) ∧
    (max 1 ((Cache.init 0 : Cache Nat).data.length / 10) = 1) := by
  have h2 : (Cache.init 0 : Cache Nat).evictIfFull = Cache.init 0 :=
    Cache.evict_of_nil rfl
  rw [h2]
  exact ⟨by decide, rfl, by decide, by decide⟩

/-- C3 (amended): when eviction triggers with at least one entry present —
always the case once `max_size ≥ 1` — and under the dict invariant of
pairwise-distinct keys, `_evict_if_full` removes exactly
`max(1, size // 10)` entries; the survivors are precisely the entries whose
key is outside the oldest-tenth slice of the stable timestamp sort, and
every removed entry's timestamp is at most every surviving entry's
timestamp (selection purely by stored timestamp, ties resolved by the
stable sort); concretely, with `max_size = 10`, inserting 11 distinct keys
leaves exactly 10 entries with the most-recently-inserted key present.
The unamended claim fails only in the degenerate `max_size = 0` case where
eviction triggers on an empty store and removes nothing (see the
counterexample). -/
theorem evict_oldest_amended {α : Type} (c : Cache α)
    (hfull : c.maxSize ≤ c.data.length) (h1 : 1 ≤ c.data.length)
    (hnd : keysNodup c.data) :
    ((c.evictIfFull).data.length + max 1 (c.data.length / 10) =
      c.data.length) ∧
    ((c.evictIfFull).data =
      c.data.filter (fun p => !((removedKeys c).contains p.1))) ∧
    (∀ p ∈ c.data, p ∉ (c.evictIfFull).data →
      ∀ q ∈ (c.evictIfFull).data, p.2.timestamp ≤ q.2.timestamp) ∧
    (((Cache.init 10 : Cache Nat).run elevenKeyOps).data.length = 10 ∧
      dictGet ((Cache.init 10 : Cache Nat).run elevenKeyOps).data ("k10") =
        some { value := 0, timestamp := 10 }) := by
  refine ⟨?_, Cache.evict_data_eq_filter hfull, ?_, ?_⟩
  · rw [← evictCount_eq_max]
    exact Cache.evict_exact hfull h1 hnd
  · intro p hp hpnot q hq
    have hpk : p.1 ∈ removedKeys c := by
      by_contra hnk
      exact hpnot ((Cache.mem_evict_iff hfull hp).mpr hnk)
    exact Cache.evict_oldest hfull hnd p hp hpk q hq
  · have hrun : (Cache.init 10 : Cache Nat).run elevenKeyOps =
        ((Cache.init 10 : Cache Nat).run tenKeyOps).set ("k10") 0 10 := rfl
    have hc10 : (Cache.init 10 : Cache Nat).run tenKeyOps =
        Cache.mk tenKeyData 10 := by decide
    rw [hrun, hc10]
    have hev : ((Cache.mk tenKeyData 10).evictIfFull).data.length +
        evictCount ((Cache.mk tenKeyData 10).data.length) =
        (Cache.mk tenKeyData 10).data.length :=
      Cache.evict_exact (by decide) (by decide) (by decide)
    have hec : evictCount ((Cache.mk tenKeyData 10).data.length) = 1 := by
      decide
    have hdl : (Cache.mk tenKeyData 10).data.length = 10 := by decide
    have hsubk : (dictKeys (((Cache.mk tenKeyData 10).evictIfFull).data)).Sublist
        (dictKeys ((Cache.mk tenKeyData 10).data)) := by
      unfold dictKeys
      exact List.Sublist.map (fun p => p.1)
        (Cache.evict_data_sublist (Cache.mk tenKeyData 10))
    have habs : dictGet (((Cache.mk tenKeyData 10).evictIfFull).data)
        ("k10") = none := by
      rw [dictGet_eq_none_iff]
      intro hmem
      have hk10 : ("k10") ∈ dictKeys ((Cache.mk tenKeyData 10).data) :=
        List.Sublist.mem hmem hsubk
      revert hk10
      decide
    have hset : ((Cache.mk tenKeyData 10).set ("k10") 0 10).data =
        dictInsert (((Cache.mk tenKeyData 10).evictIfFull).data) ("k10")
          (CacheEntry.mk 0 10) := rfl
    constructor
    · rw [hset, length_dictInsert_absent _ habs]
      omega
    · exact Cache.set_stores (Cache.mk tenKeyData 10) ("k10") 0 10

/-- Witness for `evict_oldest_amended`: a concrete full three-entry cache
with `max_size = 3`; eviction removes exactly one (the oldest) entry. -/
theorem evict_oldest_amended_witness :
    ((Cache.mk [(("a"), CacheEntry.mk 1 0), (("b"), CacheEntry.mk 2 5),
      (("c"), CacheEntry.mk 3 9)] 3).maxSize ≤ 3) ∧
    (1 ≤ (3:Nat)) ∧
    keysNodup (Cache.mk [(("a"), CacheEntry.mk 1 0), (("b"), CacheEntry.mk 2 5),
      (("c"), CacheEntry.mk 3 9)] 3).data ∧
    (((Cache.mk [(("a"), CacheEntry.mk 1 0), (("b"), CacheEntry.mk 2 5),
      (("c"), CacheEntry.mk 3 9)] 3).evictIfFull).data.length +
      max 1 ((Cache.mk [(("a"), CacheEntry.mk 1 0), (("b"), CacheEntry.mk 2 5),
      (("c"), CacheEntry.mk 3 9)] 3).data.length / 10) =
      (Cache.mk [(("a"), CacheEntry.mk 1 0), (("b"), CacheEntry.mk 2 5),
      (("c"), CacheEntry.mk 3 9)] 3).data.length) :=
  ⟨by decide, by decide, by decide,
    (evict_oldest_amended
      (Cache.mk [(("a"), CacheEntry.mk 1 0), (("b"), CacheEntry.mk 2 5),
        (("c"), CacheEntry.mk 3 9)] 3) (by decide) (by decide) (by decide)).1⟩

theorem renderMiss_fetched (c : Cache String) (now : Int) (key : String)
    (outcome : FetchResult String) (render : String → String) :
    (renderMiss c now key outcome render).fetched = true := by
  cases outcome <;> rfl

theorem feedMiss_fetched {α : Type} (c : Cache α) (now : Int)
    (outcome : FetchResult α) : (feedMiss c now outcome).fetched = true := by
  cases outcome <;> rfl

/-- C6 counterexample: a fresh cache entry holding the empty string under
`post:x` — `Cache.get` returns this present value, yet `_render_content`
still invokes the fetch gateway, because the handlers test the returned
value's truthiness (`if cached := cache.get(...)`), not its presence. -/
theorem cache_hit_truthiness_counterexample :
    (((Cache.mk [(("post:x"), CacheEntry.mk ("") 100)] 1000).get
      ("post:x") 1800 100).1 = some ("")) ∧
    ((renderContent (Cache.mk [(("post:x"), CacheEntry.mk ("") 100)] 1000)
      1800 100 ("x") ("post") (FetchResult.success ("<html>"))
      (fun _ => ("G"))).fetched = true) := by
  exact ⟨by decide, by decide⟩

/-- C6 (amended): when `Cache.get` returns a present truthy value
(a nonempty string for `_render_content`; a value the host language treats
as truthy for `_get_feed`), the handler returns it immediately with no
gateway call and the cache left as the read left it; when `Cache.get`
returns absent, the handler invokes the gateway and, on success, stores the
transformed result under the cache key and returns it. (As stated — for
every present value — the claim fails on falsy present values, which the
handlers treat as misses: see the counterexample and `falsy_hit_refetches`.) -/
theorem cache_hit_truthiness_amended {α : Type} (truthy : α → Bool)
    (cs : Cache String) (cf : Cache α) (ttlP ttlF nowP nowF : Int)
    (slug contentType : String) (outS : FetchResult String)
    (outF : FetchResult α) (render : String → String) :
    (∀ v, (cs.get (cacheKey contentType slug) ttlP nowP).1 = some v →
      ¬ v = "" →
      renderContent cs ttlP nowP slug contentType outS render =
        { result := HandlerResult.ok v,
          cache := (cs.get (cacheKey contentType slug) ttlP nowP).2,
          fetched := false }) ∧
    ((cs.get (cacheKey contentType slug) ttlP nowP).1 = none →
      (renderContent cs ttlP nowP slug contentType outS render).fetched = true ∧
      (∀ html, outS = FetchResult.success html →
        (renderContent cs ttlP nowP slug contentType outS render).result =
          HandlerResult.ok (render html) ∧
        dictGet
          (renderContent cs ttlP nowP slug contentType outS render).cache.data
          (cacheKey contentType slug) =
          some { value := render html, timestamp := nowP })) ∧
    (∀ v, (cf.get ("feed") ttlF nowF).1 = some v → truthy v = true →
      getFeed truthy cf ttlF nowF outF =
        { result := HandlerResult.ok v,
          cache := (cf.get ("feed") ttlF nowF).2, fetched := false }) ∧
    ((cf.get ("feed") ttlF nowF).1 = none →
      (getFeed truthy cf ttlF nowF outF).fetched = true ∧
      (∀ f, outF = FetchResult.success f →
        (getFeed truthy cf ttlF nowF outF).result = HandlerResult.ok f ∧
        dictGet (getFeed truthy cf ttlF nowF outF).cache.data ("feed") =
          some { value := f, timestamp := nowF })) := by
  refine ⟨?_, ?_, ?_, ?_⟩
  · intro v hv hvv
    exact renderContent_of_hit outS render hv hvv
  · intro hn
    rw [renderContent_of_none outS render hn]
    refine ⟨renderMiss_fetched _ _ _ _ _, ?_⟩
    intro html hout
    subst hout
    exact ⟨rfl, Cache.set_stores _ _ _ _⟩
  · intro v hv ht
    exact getFeed_of_hit outF hv ht
  · intro hn
    rw [getFeed_of_none outF hn]
    refine ⟨feedMiss_fetched _ _ _, ?_⟩
    intro f hout
    subst hout
    exact ⟨rfl, Cache.set_stores _ _ _ _⟩

/-- Witness for `cache_hit_truthiness_amended`: a fresh nonempty cached
gemtext is served with no gateway call. -/
theorem cache_hit_truthiness_amended_witness :
    (renderContent (Cache.mk [(("post:x"), CacheEntry.mk ("G") 100)] 1000)
      1800 100 ("x") ("post") (FetchResult.success ("H"))
      (fun s => s)).fetched = false := by
  have h := (cache_hit_truthiness_amended (fun _ : Nat => true)
    (Cache.mk [(("post:x"), CacheEntry.mk ("G") 100)] 1000)
    (Cache.init 1000) 1800 300 100 100 ("x") ("post")
    (FetchResult.success ("H")) (FetchResult.success 1) (fun s => s)).1
    ("G") (by decide) (by decide)
  rw [h]

theorem renderMiss_serverError (c : Cache String) (now : Int)
    (key m : String) (render : String → String) :
    renderMiss c now key (FetchResult.serverError m) render =
    { result := HandlerResult.temporaryFailure m, cache := c,
      fetched := true } := rfl

/-- C7 counterexample: the claim says the cache state is left unchanged on
fetch failure; but when the miss that triggered the fetch was an expiry,
the read itself already removed the expired entry, so the handler ends with
a cache state different from the one it started with even though the fetch
failed. Here the store goes from one (expired) entry to empty. -/
theorem failure_cache_state_counterexample :
    ((renderContent (Cache.mk [(("post:x"), CacheEntry.mk ("old") 0)] 1000)
      1800 5000 ("x") ("post") (FetchResult.serverError ("boom"))
      (fun s => s)).result = HandlerResult.temporaryFailure ("boom")) ∧
    ((renderContent (Cache.mk [(("post:x"), CacheEntry.mk ("old") 0)] 1000)
      1800 5000 ("x") ("post") (FetchResult.serverError ("boom"))
      (fun s => s)).cache.data = []) ∧
    ¬ (Cache.mk [(("post:x"), CacheEntry.mk ("old") 0)] 1000).data = [] := by
  exact ⟨by decide, by decide, by decide⟩

/-- C7 (amended): on any fetch failure the handler propagates the
corresponding protocol failure (`NotFoundError` to `NotFound`,
`ServerError` to `TemporaryFailure`) and never writes a cache entry: the
final cache state is exactly the state the initial read left behind (the
read may itself have removed an expired entry — the only possible change);
consequently an immediately following request misses again and re-attempts
the fetch rather than serving or caching a failure. -/
theorem failure_no_write_amended {α : Type} (truthy : α → Bool)
    (cs : Cache String) (cf : Cache α) (ttlP ttlF nowP nowF now2 : Int)
    (slug contentType m : String) (render : String → String)
    (out2 : FetchResult String) :
    ((renderContent cs ttlP nowP slug contentType
        (FetchResult.notFoundError m) render).fetched = true →
      renderContent cs ttlP nowP slug contentType
        (FetchResult.notFoundError m) render =
      { result := HandlerResult.notFound m,
        cache := (cs.get (cacheKey contentType slug) ttlP nowP).2,
        fetched := true }) ∧
    ((renderContent cs ttlP nowP slug contentType
        (FetchResult.serverError m) render).fetched = true →
      renderContent cs ttlP nowP slug contentType
        (FetchResult.serverError m) render =
      { result := HandlerResult.temporaryFailure m,
        cache := (cs.get (cacheKey contentType slug) ttlP nowP).2,
        fetched := true }) ∧
    ((renderContent cs ttlP nowP slug contentType
        (FetchResult.serverError m) render).fetched = true →
      (renderContent
        (renderContent cs ttlP nowP slug contentType
          (FetchResult.serverError m) render).cache
        ttlP now2 slug contentType out2 render).fetched = true) ∧
    ((getFeed truthy cf ttlF nowF (FetchResult.notFoundError m)).fetched =
        true →
      getFeed truthy cf ttlF nowF (FetchResult.notFoundError m) =
      { result := HandlerResult.notFound m,
        cache := (cf.get ("feed") ttlF nowF).2, fetched := true }) ∧
    ((getFeed truthy cf ttlF nowF (FetchResult.serverError m)).fetched =
        true →
      getFeed truthy cf ttlF nowF (FetchResult.serverError m) =
      { result := HandlerResult.temporaryFailure m,
        cache := (cf.get ("feed") ttlF nowF).2, fetched := true }) := by
  refine ⟨?_, ?_, ?_, ?_, ?_⟩
  · intro hf
    rcases hv : (cs.get (cacheKey contentType slug) ttlP nowP).1 with _ | v
    · rw [renderContent_of_none _ render hv]
      rfl
    · by_cases hvv : v = ""
      · subst hvv
        rw [renderContent_of_falsy _ render hv]
        rfl
      · rw [renderContent_of_hit _ render hv hvv] at hf
        simp at hf
  · intro hf
    rcases hv : (cs.get (cacheKey contentType slug) ttlP nowP).1 with _ | v
    · rw [renderContent_of_none _ render hv]
      rfl
    · by_cases hvv : v = ""
      · subst hvv
        rw [renderContent_of_falsy _ render hv]
        rfl
      · rw [renderContent_of_hit _ render hv hvv] at hf
        simp at hf
  · intro hf
    rcases hv : (cs.get (cacheKey contentType slug) ttlP nowP).1 with _ | v
    · rw [renderContent_of_none (FetchResult.serverError m) render hv,
        renderMiss_serverError]
      dsimp only
      have habs : dictGet
          ((cs.get (cacheKey contentType slug) ttlP nowP).2).data
          (cacheKey contentType slug) = none :=
        Cache.get_none_not_stored hv
      have h2 : (((cs.get (cacheKey contentType slug) ttlP nowP).2).get
          (cacheKey contentType slug) ttlP now2).1 = none := by
        rw [Cache.get_of_absent ttlP now2 habs]
      rw [renderContent_of_none out2 render h2]
      exact renderMiss_fetched _ _ _ _ _
    · by_cases hvv : v = ""
      · subst hvv
        have hinv := Cache.get_some_inv hv
        rcases hinv with ⟨hcache, e, he, hev, _⟩
        rw [renderContent_of_falsy (FetchResult.serverError m) render hv,
          renderMiss_serverError]
        dsimp only
        rw [hcache]
        by_cases hf2 : now2 - e.timestamp < ttlP
        · have hg2 : (cs.get (cacheKey contentType slug) ttlP now2).1 =
              some ("") := by
            rw [Cache.get_of_fresh he hf2, hev]
          rw [renderContent_of_falsy out2 render hg2]
          exact renderMiss_fetched _ _ _ _ _
        · have hg2 : (cs.get (cacheKey contentType slug) ttlP now2).1 =
              none := by
            rw [Cache.get_of_expired he hf2]
          rw [renderContent_of_none out2 render hg2]
          exact renderMiss_fetched _ _ _ _ _
      · rw [renderContent_of_hit _ render hv hvv] at hf
        simp at hf
  · intro hf
    rcases hv : (cf.get ("feed") ttlF nowF).1 with _ | v
    · rw [getFeed_of_none _ hv]
      rfl
    · rcases ht : truthy v with _ | _
      · rw [getFeed_of_falsy _ hv ht]
        rfl
      · rw [getFeed_of_hit _ hv ht] at hf
        simp at hf
  · intro hf
    rcases hv : (cf.get ("feed") ttlF nowF).1 with _ | v
    · rw [getFeed_of_none _ hv]
      rfl
    · rcases ht : truthy v with _ | _
      · rw [getFeed_of_falsy _ hv ht]
        rfl
      · rw [getFeed_of_hit _ hv ht] at hf
        simp at hf

/-- Witness for `failure_no_write_amended`: a server error after an
expired entry yields `TemporaryFailure` with nothing written. -/
theorem failure_no_write_amended_witness :
    (renderContent (Cache.mk [(("post:x"), CacheEntry.mk ("old") 0)] 1000)
      1800 5000 ("x") ("post") (FetchResult.serverError ("boom"))
      (fun s => s)).result = HandlerResult.temporaryFailure ("boom") := by
  have h := (failure_no_write_amended (fun _ : Nat => true)
    (Cache.mk [(("post:x"), CacheEntry.mk ("old") 0)] 1000) (Cache.init 5)
    1800 300 5000 0 0 ("x") ("post") ("boom") (fun s => s)
    (FetchResult.success ("z"))).2.1 (by decide)
  rw [h]

/-- C9: for a fresh cache entry whose stored value is falsy in Python
(the empty string for `_render_content`; any value with `truthy v = false`
for `_get_feed`), the handler treats the hit as a miss: `Cache.get` itself
returns the stored value, yet the handler invokes the fetch gateway and,
on success, re-stores and returns the fetched result — because
`if cached := cache.get(...)` tests the returned value's truthiness, not
its presence. -/
theorem falsy_hit_refetches {α : Type} (cs : Cache String)
    (t0 ttl now : Int) (slug contentType html : String)
    (render : String → String) (truthy : α → Bool) (cf : Cache α)
    (f g : α) (tf ttlF nowF : Int)
    (hk : dictGet cs.data (cacheKey contentType slug) =
      some { value := (""), timestamp := t0 })
    (hfresh : now - t0 < ttl) :
    ((cs.get (cacheKey contentType slug) ttl now).1 = some ("")) ∧
    ((renderContent cs ttl now slug contentType (FetchResult.success html)
      render).fetched = true) ∧
    ((renderContent cs ttl now slug contentType (FetchResult.success html)
      render).result = HandlerResult.ok (render html)) ∧
    (dictGet (renderContent cs ttl now slug contentType
      (FetchResult.success html) render).cache.data
      (cacheKey contentType slug) =
      some { value := render html, timestamp := now }) ∧
    (dictGet cf.data ("feed") = some { value := f, timestamp := tf } →
      truthy f = false → nowF - tf < ttlF →
      (getFeed truthy cf ttlF nowF (FetchResult.success g)).fetched = true ∧
      dictGet (getFeed truthy cf ttlF nowF
        (FetchResult.success g)).cache.data ("feed") =
        some { value := g, timestamp := nowF }) := by
  have hget : (cs.get (cacheKey contentType slug) ttl now).1 = some ("") := by
    rw [Cache.get_of_fresh hk hfresh]
  have hrc := renderContent_of_falsy (FetchResult.success html) render hget
  refine ⟨hget, ?_, ?_, ?_, ?_⟩
  · rw [hrc]
    exact renderMiss_fetched _ _ _ _ _
  · rw [hrc]
    rfl
  · rw [hrc]
    exact Cache.set_stores _ _ _ _
  · intro hk2 htf hfresh2
    have hget2 : (cf.get ("feed") ttlF nowF).1 = some f := by
      rw [Cache.get_of_fresh hk2 hfresh2]
    have hgf := getFeed_of_falsy (FetchResult.success g) hget2 htf
    rw [hgf]
    exact ⟨feedMiss_fetched _ _ _, Cache.set_stores _ _ _ _⟩

/-- Witness for `falsy_hit_refetches`: a fresh empty-string entry under
`post:x` is re-fetched despite being present. -/
theorem falsy_hit_refetches_witness :
    (renderContent (Cache.mk [(("post:x"), CacheEntry.mk ("") 100)] 1000)
      1800 100 ("x") ("post") (FetchResult.success ("<h>"))
      (fun _ => ("G"))).fetched = true :=
  (falsy_hit_refetches (Cache.mk [(("post:x"), CacheEntry.mk ("") 100)] 1000)
    100 1800 100 ("x") ("post") ("<h>") (fun _ => ("G"))
    (fun _ : Nat => true) (Cache.init 5) 1 2 0 300 0
    (by decide) (by decide)).2.1

/-- C10: `cache.py` creates a single module-level instance
(`cache = Cache()`) which `__init__.py` imports, so every application built
by `create_app` shares one store rather than per-application state;
modelled by threading the one shared cache state through the `_get_feed`
closures of two instances. Once instance 1 (settings `s1`) has populated
the fixed key `"feed"`, instance 2 — constructed with different settings
`s2`, in particular a different `bearblog_url` — serves instance 1's cached
feed within `s2`'s TTL without invoking its own gateway: its own upstream
feed `g` is never consulted. -/
theorem shared_cache_cross_instance {α : Type} (truthy : α → Bool)
    (ms : Nat) (s1 s2 : Settings) (f g : α) (t1 t2 : Int)
    (hdiff : ¬ s1.bearblogUrl = s2.bearblogUrl)
    (hf : truthy f = true) (hfresh : t2 - t1 < s2.cacheTtlFeed) :
    ((appGetFeed s1 truthy (Cache.init ms) t1
      (FetchResult.success f)).result = HandlerResult.ok f) ∧
    ((appGetFeed s1 truthy (Cache.init ms) t1
      (FetchResult.success f)).fetched = true) ∧
    ((appGetFeed s2 truthy
      (appGetFeed s1 truthy (Cache.init ms) t1 (FetchResult.success f)).cache
      t2 (FetchResult.success g)).result = HandlerResult.ok f) ∧
    ((appGetFeed s2 truthy
      (appGetFeed s1 truthy (Cache.init ms) t1 (FetchResult.success f)).cache
      t2 (FetchResult.success g)).fetched = false) := by
  unfold appGetFeed
  have hga : (Cache.init ms : Cache α).get ("feed") s1.cacheTtlFeed t1 =
      (none, Cache.init ms) := Cache.get_of_absent _ _ rfl
  have hstep1 : getFeed truthy (Cache.init ms) s1.cacheTtlFeed t1
      (FetchResult.success f) =
      { result := HandlerResult.ok f,
        cache := (Cache.init ms : Cache α).set ("feed") f t1,
        fetched := true } := by
    rw [getFeed_of_none _ (by rw [hga])]
    rw [hga]
    rfl
  rw [hstep1]
  dsimp only
  have hst := Cache.set_stores (Cache.init ms : Cache α) ("feed") f t1
  have hg2 := Cache.get_of_fresh hst
    (show t2 - ({ value := f, timestamp := t1 } : CacheEntry α).timestamp <
      s2.cacheTtlFeed from hfresh)
  have hv1 : (((Cache.init ms : Cache α).set ("feed") f t1).get ("feed")
      s2.cacheTtlFeed t2).1 = some f := by
    rw [hg2]
  have hstep2 := getFeed_of_hit (FetchResult.success g) hv1 hf
  rw [hstep2, hg2]
  exact ⟨rfl, rfl, rfl, rfl⟩

/-- Witness for `shared_cache_cross_instance`: two app instances with
different upstream URLs; the second serves the first's cached feed. -/
theorem shared_cache_cross_instance_witness :
    (appGetFeed { bearblogUrl := ("http://b"), blogName := ("B") }
      (fun _ : Nat => true)
      (appGetFeed { bearblogUrl := ("http://a"), blogName := ("A") }
        (fun _ : Nat => true) (Cache.init 1000) 0
        (FetchResult.success 7)).cache
      10 (FetchResult.success 9)).result = HandlerResult.ok 7 :=
  (shared_cache_cross_instance (fun _ : Nat => true) 1000
    { bearblogUrl := ("http://a"), blogName := ("A") }
    { bearblogUrl := ("http://b"), blogName := ("B") } 7 9 0 10
    (by decide) (by decide) (by decide)).2.2.1
